import Mathlib

/-!
Verification development for the expo-sqlite expense-tracking screen.

The repository contains three variants of an `ExpenseScreen` React Native
component backed by a local SQLite table `expenses(id, amount, category,
note, date)`.  This file gives a shallow embedding of the parts of that
code that carry logic:

* the date helpers `formatDateForDb`, `isInCurrentWeek`, `isInCurrentMonth`
  (JavaScript `Date` values are modelled as civil date-times on a single
  UTC-like timeline; `Date` timestamps are integer milliseconds);
* the submit handlers `handleSubmit` (validated variants) and
  `saveExpense` (the simple first variant), with JavaScript `parseFloat`
  modelled as an exact scanner of decimal literals returning `Option Rat`
  (`none` models `NaN`);
* the store operations, with the SQLite table modelled as a list of rows
  plus the next auto-increment id;
* the filter (`ALL` / `WEEK` / `MONTH`) and the aggregations
  `totalSpending` and `totalsByCategory` (JavaScript objects keyed by
  strings preserve insertion order, so the category map is modelled as an
  association list where assigning a fresh key appends it).

Numbers are modelled as exact rationals; IEEE-754 rounding of JavaScript
arithmetic is outside the model.
-/

namespace ExpenseApp

/-- Civil date-time with millisecond precision, as manipulated by a
JavaScript `Date` object, on a single (UTC-like) timeline.  `month` is the
calendar month 1..12 and `day` the calendar day 1..31. -/
structure JSDate where
  year : Int
  month : Nat
  day : Nat
  hour : Nat
  minute : Nat
  second : Nat
  ms : Nat
deriving DecidableEq, Repr

/-- Number of days from 1970-01-01 to the given civil date in the
proleptic Gregorian calendar (the calendar used by JavaScript `Date`).
This is the standard days-from-civil computation: years are rebased to
start in March so leap days fall at the end of the shifted year. -/
def daysFromCivil (y : Int) (m d : Nat) : Int :=
  let yAdj : Int := if m ≤ 2 then y - 1 else y
  let era : Int := Int.fdiv yAdj 400
  let yoe : Nat := (yAdj - era * 400).toNat
  let mp : Nat := (m + 9) % 12
  let doy : Nat := (153 * mp + 2) / 5 + d - 1
  let doe : Nat := yoe * 365 + yoe / 4 - yoe / 100 + doy
  era * 146097 + (doe : Int) - 719468

/-- Model of `Date.prototype.getDay`: day of week with 0 = Sunday ..
6 = Saturday.  1970-01-01 (day 0 of the epoch) was a Thursday (4). -/
def getDay (d : JSDate) : Int :=
  (daysFromCivil d.year d.month d.day + 4) % 7

/-- Model of `Date.prototype.getTime`: milliseconds since the epoch. -/
def toMillis (d : JSDate) : Int :=
  daysFromCivil d.year d.month d.day * 86400000
    + (d.hour * 3600000 + d.minute * 60000 + d.second * 1000 + d.ms : Nat)

/-- Gregorian leap-year rule, as used by the JavaScript date parser. -/
def isLeapYear (y : Int) : Bool :=
  (y % 4 == 0 && y % 100 != 0) || y % 400 == 0

/-- Number of days in a calendar month (month 1..12). -/
def daysInMonth (y : Int) (m : Nat) : Nat :=
  if m = 2 then (if isLeapYear y then 29 else 28)
  else if m = 4 ∨ m = 6 ∨ m = 9 ∨ m = 11 then 30
  else 31

/-- Numeric value of a decimal digit character. -/
def digitVal (c : Char) : Nat := c.toNat - 48

/-- Model of `new Date(dateStr)` on the date-only ISO form used by this
app.  The records' dates are stored as `YYYY-MM-DD`; the ECMAScript date
parser maps a well-formed `YYYY-MM-DD` string to midnight of that civil
day and maps out-of-range fields (month 00 or 13, day beyond the month's
end) to an invalid date (`NaN`), modelled as `none`.  Strings not of this
ten-character shape are likewise modelled as invalid. -/
def parseDate (s : String) : Option JSDate :=
  match s.data with
  | [y1, y2, y3, y4, h1, m1, m2, h2, d1, d2] =>
    if y1.isDigit && y2.isDigit && y3.isDigit && y4.isDigit
        && (h1 == '-') && m1.isDigit && m2.isDigit
        && (h2 == '-') && d1.isDigit && d2.isDigit then
      let y : Int :=
        (1000 * digitVal y1 + 100 * digitVal y2 + 10 * digitVal y3 + digitVal y4 : Nat)
      let m : Nat := 10 * digitVal m1 + digitVal m2
      let d : Nat := 10 * digitVal d1 + digitVal d2
      if 1 ≤ m ∧ m ≤ 12 ∧ 1 ≤ d ∧ d ≤ daysInMonth y m then
        some ⟨y, m, d, 0, 0, 0, 0⟩
      else none
    else none
  | _ => none

/-- Fixed-width two-digit decimal rendering (a field of
`Date.prototype.toISOString`). -/
def pad2 (n : Nat) : List Char :=
  [Nat.digitChar (n / 10 % 10), Nat.digitChar (n % 10)]

/-- Fixed-width four-digit decimal rendering (the year field of
`Date.prototype.toISOString` for years 0..9999). -/
def pad4 (n : Nat) : List Char :=
  [Nat.digitChar (n / 1000 % 10), Nat.digitChar (n / 100 % 10),
    Nat.digitChar (n / 10 % 10), Nat.digitChar (n % 10)]

/-- Source: `formatDateForDb(date) { return date.toISOString().slice(0, 10); }`
(lines 211-213 and 647-649), producing the `YYYY-MM-DD` prefix of the ISO
rendering.  Modelled for years 0..9999, where `toISOString` uses exactly
four year digits. -/
def formatDateForDb (d : JSDate) : String :=
  String.mk (pad4 d.year.toNat ++ '-' :: (pad2 d.month ++ '-' :: pad2 d.day))

/-- Whitespace recognised when trimming form fields (the common ASCII
subset of JavaScript's `trim`). -/
def isJsSpace (c : Char) : Bool :=
  c == ' ' || c == '\t' || c == '\n' || c == '\r'

/-- Model of `String.prototype.trim`: drop whitespace from both ends. -/
def trimStr (s : String) : String :=
  String.mk (((s.data.dropWhile isJsSpace).reverse.dropWhile isJsSpace).reverse)

/-- Decimal literal recognised by `parseFloat`: sign, integer digits,
fraction digits (with their count, to recover the scale), and exponent. -/
structure FloatLit where
  sign : Int
  intDigits : Nat
  fracDigits : Nat
  fracLen : Nat
  exp : Int
deriving DecidableEq, Repr

/-- Scanner part of JavaScript `parseFloat`: skip leading whitespace, read
an optional sign, integer digits, an optional fraction, and an optional
exponent, ignoring any trailing garbage.  Returns `none` (`NaN`) when no
digits are found.  (The special literal `Infinity` is outside the model;
the app only feeds finite decimal strings to `parseFloat`.) -/
def scanFloat (s : String) : Option FloatLit :=
  let cs := s.data.dropWhile isJsSpace
  let p : Int × List Char :=
    match cs with
    | '-' :: rest => (-1, rest)
    | '+' :: rest => (1, rest)
    | _ => (1, cs)
  let intPart := p.2.takeWhile Char.isDigit
  let cs2 := p.2.dropWhile Char.isDigit
  let q : List Char × List Char :=
    match cs2 with
    | '.' :: rest => (rest.takeWhile Char.isDigit, rest.dropWhile Char.isDigit)
    | _ => ([], cs2)
  if intPart.isEmpty && q.1.isEmpty then none
  else
    let intVal := intPart.foldl (fun a c => 10 * a + digitVal c) 0
    let fracVal := q.1.foldl (fun a c => 10 * a + digitVal c) 0
    let e : Int :=
      match q.2 with
      | c :: rest =>
        if c == 'e' || c == 'E' then
          let r : Int × List Char :=
            match rest with
            | '-' :: r2 => (-1, r2)
            | '+' :: r2 => (1, r2)
            | _ => (1, rest)
          let eDigits := r.2.takeWhile Char.isDigit
          if eDigits.isEmpty then 0
          else r.1 * (eDigits.foldl (fun a c => 10 * a + digitVal c) 0 : Nat)
        else 0
      | [] => 0
    some ⟨p.1, intVal, fracVal, q.1.length, e⟩

/-- Exact numeric value of a scanned decimal literal. -/
def litValue (f : FloatLit) : Rat :=
  (f.sign : Rat) * ((f.intDigits : Rat) + (f.fracDigits : Rat) / (10 : Rat) ^ f.fracLen)
    * (10 : Rat) ^ f.exp

/-- Model of JavaScript `parseFloat` on finite decimal literals: `none`
models `NaN`, `some q` the exact value of the recognised prefix. -/
def parseFloat (s : String) : Option Rat :=
  (scanFloat s).map litValue

/-- One row of the `expenses` table.  `amount` is `Option Rat`: `none`
models a SQL `NULL` (for instance the `NULL` that SQLite stores when the
unvalidated first variant inserts a `NaN` amount); JavaScript reads it
back as `null`. -/
structure Expense where
  id : Nat
  amount : Option Rat
  category : String
  note : Option String
  date : String
deriving DecidableEq, Repr

/-- The `expenses` table: rows in insertion (ascending id) order, plus the
next auto-increment id.  `SELECT * ... ORDER BY id DESC` is the reverse of
`rows`. -/
structure Store where
  rows : List Expense
  nextId : Nat
deriving DecidableEq, Repr

/-- The three filter modes of the `FILTERS` constant. -/
inductive FilterMode where
  | ALL
  | WEEK
  | MONTH
deriving DecidableEq, Repr

/-- Source: `isInCurrentWeek` (lines 215-232, identically 651-667).  An
empty or unparseable date string yields `false`; otherwise the record's
date is compared against Monday 00:00:00.000 and Sunday 23:59:59.999 of
the week containing `now`.  The JavaScript steps
`monday.setDate(now.getDate() - dayOfWeek); monday.setHours(0,0,0,0)` and
`sunday.setDate(monday.getDate() + 6); sunday.setHours(23,59,59,999)` are
modelled as the corresponding epoch-millisecond values: shifting a date by
k days shifts its epoch-day count by k, and `setHours` fixes the time of
day. -/
def isInCurrentWeek (now : JSDate) (dateStr : String) : Bool :=
  if dateStr = "" then false
  else
    match parseDate dateStr with
    | none => false
    | some d =>
      let dayOfWeek : Int := (getDay now + 6) % 7
      let mondayMs : Int :=
        (daysFromCivil now.year now.month now.day - dayOfWeek) * 86400000
      let sundayMs : Int := mondayMs + 6 * 86400000 + 86399999
      decide (mondayMs ≤ toMillis d ∧ toMillis d ≤ sundayMs)

/-- Source: `isInCurrentMonth` of the validated variant (lines 234-244):
guard against empty and unparseable dates, then compare `getFullYear` and
`getMonth` with those of `now`. -/
def isInCurrentMonth (now : JSDate) (dateStr : String) : Bool :=
  if dateStr = "" then false
  else
    match parseDate dateStr with
    | none => false
    | some d => decide (d.year = now.year ∧ d.month = now.month)

/-- Source: `isInCurrentMonth` of the chart variant (lines 669-674), which
has no explicit invalid-date guard.  On an invalid date, `getFullYear()`
returns `NaN` and `NaN === now.getFullYear()` is `false`, so the function
still returns `false` without throwing; the `none` branch models exactly
that NaN comparison. -/
def isInCurrentMonthV3 (now : JSDate) (dateStr : String) : Bool :=
  if dateStr = "" then false
  else
    match parseDate dateStr with
    | none => false
    | some d => decide (d.year = now.year ∧ d.month = now.month)

/-- Source: `filteredExpenses` (lines 342-354 as an if-chain, lines
752-761 as a switch; both return the input list for `ALL` and otherwise
filter by the matching classifier). -/
def filteredExpenses (filter : FilterMode) (now : JSDate)
    (expenses : List Expense) : List Expense :=
  match filter with
  | .ALL => expenses
  | .WEEK => expenses.filter (fun e => isInCurrentWeek now e.date)
  | .MONTH => expenses.filter (fun e => isInCurrentMonth now e.date)

/-- Source: `handleSubmit` of the validated variant (lines 295-326).
Validation: `parseFloat(amount)` must be a number strictly greater than
zero and the trimmed category must be non-empty, otherwise the handler
returns with no store mutation.  An empty (or whitespace-only) date field
falls back to today via `date.trim() || formatDateForDb(new Date())`.
With `editingId == null` the row is inserted (a trimmed-empty note is
stored as `NULL`), otherwise the row with that id has all four fields
replaced. -/
def handleSubmit (now : JSDate) (st : Store) (editingId : Option Nat)
    (amount category note date : String) : Store :=
  match parseFloat amount with
  | none => st
  | some amountNumber =>
    if amountNumber ≤ 0 then st
    else
      let trimmedCategory := trimStr category
      let trimmedNote := trimStr note
      if trimmedCategory = "" then st
      else
        let expenseDate :=
          if trimStr date = "" then formatDateForDb now else trimStr date
        match editingId with
        | none =>
          { rows := st.rows ++
              [⟨st.nextId, some amountNumber, trimmedCategory,
                (if trimmedNote = "" then none else some trimmedNote),
                expenseDate⟩],
            nextId := st.nextId + 1 }
        | some eid =>
          { st with
            rows := st.rows.map (fun e =>
              if e.id = eid then
                { e with
                  amount := some amountNumber,
                  category := trimmedCategory,
                  note := (if trimmedNote = "" then none else some trimmedNote),
                  date := expenseDate }
              else e) }

/-- Source: `saveExpense` of the first (chart-on-top) variant (lines
59-74).  The only guard is JavaScript truthiness of the three raw strings
`amount`, `category`, `date`; when all are non-empty the row is inserted
with `parseFloat(amount)` as amount.  A `NaN` amount is stored by SQLite
as `NULL`, modelled by `parseFloat` returning `none`. -/
def saveExpense (st : Store) (amount category note date : String) : Store :=
  if amount = "" ∨ category = "" ∨ date = "" then st
  else
    { rows := st.rows ++
        [⟨st.nextId, parseFloat amount, category, some note, date⟩],
      nextId := st.nextId + 1 }

/-- Source: `deleteExpense` (lines 328-331 and 747-750):
`DELETE FROM expenses WHERE id = ?`. -/
def deleteExpense (st : Store) (id : Nat) : Store :=
  { st with rows := st.rows.filter (fun e => e.id != id) }

/-- Amount of a row as read by the aggregations: `Number(e.amount || 0)`
(and `Number(e.amount)` in the chart variant).  A `NULL` amount comes back
to JavaScript as `null`, and both `null || 0` and `Number(null)` give 0,
so a missing amount contributes zero. -/
def numAmount (e : Expense) : Rat := e.amount.getD 0

/-- Source: `totalSpending` of the validated variant (lines 357-362):
`filteredExpenses.reduce((sum, e) => sum + Number(e.amount || 0), 0)`. -/
def totalSpending (es : List Expense) : Rat :=
  es.foldl (fun sum e => sum + numAmount e) 0

/-- Category key under which a row is aggregated by the validated
variant: `e.category || 'Uncategorized'` (an empty category string is
falsy and falls back to the placeholder). -/
def catKey (e : Expense) : String :=
  if e.category = "" then "Uncategorized" else e.category

/-- Category key of the chart variant: `e.category || "Other"`. -/
def catKeyV3 (e : Expense) : String :=
  if e.category = "" then "Other" else e.category

/-- One step of `map[cat] = (map[cat] || 0) + amt` on a JavaScript object
modelled as an association list: assigning an existing key updates it in
place (objects keep the key's original position), assigning a fresh key
appends it (string keys iterate in insertion order). -/
def updateAdd : List (String × Rat) → String → Rat → List (String × Rat)
  | [], k, v => [(k, v)]
  | (k0, v0) :: rest, k, v =>
    if k0 = k then (k0, v0 + v) :: rest
    else (k0, v0) :: updateAdd rest k v

/-- Source: `totalsByCategory` of the validated variant (lines 364-372):
a `forEach` over the filtered rows accumulating
`map[cat] = (map[cat] || 0) + amt` with fallback key `Uncategorized`. -/
def totalsByCategory (es : List Expense) : List (String × Rat) :=
  es.foldl (fun m e => updateAdd m (catKey e) (numAmount e)) []

/-- Source: `totalsByCategory` of the chart variant (lines 763-770), same
accumulation with fallback key `Other` and `Number(e.amount)`. -/
def totalsByCategoryV3 (es : List Expense) : List (String × Rat) :=
  es.foldl (fun m e => updateAdd m (catKeyV3 e) (numAmount e)) []

/-- Source: `totalSpending` of the chart variant (lines 772-775):
`Object.values(totalsByCategory).reduce((sum, n) => sum + n, 0)`. -/
def totalSpendingV3 (es : List Expense) : Rat :=
  ((totalsByCategoryV3 es).map Prod.snd).foldl (fun sum n => sum + n) 0

/-- Specification-side week interval start, written from the claim: the
Monday boundary is `now` minus `(weekday(now) + 6) mod 7` days (weekday
with 0 = Sunday .. 6 = Saturday), at 00:00:00.000, as an epoch
millisecond value. -/
def weekStartMs (now : JSDate) : Int :=
  (daysFromCivil now.year now.month now.day - (getDay now + 6) % 7) * 86400000

/-- Specification-side week interval end: the Sunday of the same week at
23:59:59.999. -/
def weekEndMs (now : JSDate) : Int :=
  weekStartMs now + 6 * 86400000 + 86399999

/-- Sum of the amounts of the rows of a given aggregation key (the value
the per-category mapping should associate to that key). -/
def catSum (es : List Expense) (k : String) : Rat :=
  ((es.filter (fun e => catKey e == k)).map numAmount).sum

/-- Keys of a list in order of first encounter, accumulating the keys
already seen. -/
def firstOccsAux (seen : List String) : List String → List String
  | [] => []
  | k :: ks =>
    if k ∈ seen then firstOccsAux seen ks
    else k :: firstOccsAux (k :: seen) ks

/-- Keys of a list in order of first encounter. -/
def firstOccs (l : List String) : List String := firstOccsAux [] l

/-- A civil date-time whose calendar fields are in range and whose year
fits the four-digit ISO rendering. -/
def ValidDate (d : JSDate) : Prop :=
  0 ≤ d.year ∧ d.year < 10000 ∧ 1 ≤ d.month ∧ d.month ≤ 12
    ∧ 1 ≤ d.day ∧ d.day ≤ daysInMonth d.year d.month

instance (d : JSDate) : Decidable (ValidDate d) := by
  unfold ValidDate; infer_instance

/-- Fixture: a reference time, Wednesday 2024-01-10 15:30.  The Monday of
its week is 2024-01-08 and the preceding Sunday is 2024-01-07. -/
def demoNow : JSDate := ⟨2024, 1, 10, 15, 30, 0, 0⟩

/-- Fixture: a store holding two rows with next id 3. -/
def demoStore : Store :=
  ⟨[⟨1, some 12, "Food", some "lunch", "2024-01-08"⟩,
    ⟨2, some 40, "Rent", none, "2024-01-05"⟩], 3⟩

/-- Fixture: the worked aggregation example of the specification. -/
def demoExpenses : List Expense :=
  [⟨1, some 10, "Food", none, "2024-01-02"⟩,
   ⟨2, some 5, "Food", none, "2024-01-03"⟩,
   ⟨3, some 3, "Rent", none, "2024-01-04"⟩]

/-- Fixture: a row whose amount is a SQL `NULL`. -/
def demoNullRow : Expense := ⟨9, none, "Misc", none, "2024-01-06"⟩

/-- Claim C5: filtering under `ALL` returns the input list unchanged, for
every record list, including lists holding malformed or missing dates. -/
theorem filteredExpenses_all_id :
    ∀ (now : JSDate) (es : List Expense),
      filteredExpenses FilterMode.ALL now es = es :=
  fun _ _ => rfl

/-- Claim C10: deleting by id keeps the surviving rows as a sublist of the
original rows (same order, each row unchanged in every field), keeps every
row whose id differs from the deleted one, and leaves no row with the
deleted id. -/
theorem deleteExpense_frame (st : Store) (id : Nat) :
    ((deleteExpense st id).rows.Sublist st.rows)
      ∧ (∀ e ∈ st.rows, e.id ≠ id → e ∈ (deleteExpense st id).rows)
      ∧ (∀ e ∈ (deleteExpense st id).rows, e.id ≠ id) := by
  refine ⟨List.filter_sublist _, ?_, ?_⟩
  · intro e he hne
    simp [deleteExpense, List.mem_filter, he, hne]
  · intro e he
    simp [deleteExpense, List.mem_filter] at he
    exact he.2

/-- Witness for C10 at a concrete store: the row with id 1 survives
deleting id 2, with all its fields intact. -/
theorem deleteExpense_frame_witness :
    (⟨1, some 12, "Food", some "lunch", "2024-01-08"⟩ : Expense)
      ∈ (deleteExpense demoStore 2).rows :=
  (deleteExpense_frame demoStore 2).2.1 _ (by decide) (by decide)

/-- Claim C1 (amended part): the validated submit handler `handleSubmit`
performs no insert and no update when the amount parses as `NaN` or as a
value at most zero, or when the trimmed category is empty. -/
theorem handleSubmit_rejects_invalid
    (now : JSDate) (st : Store) (editingId : Option Nat)
    (amount category note date : String)
    (h : parseFloat amount = none
        ∨ (∃ a, parseFloat amount = some a ∧ a ≤ 0)
        ∨ trimStr category = "") :
    handleSubmit now st editingId amount category note date = st := by
  unfold handleSubmit
  rcases h with h | ⟨a, ha, hle⟩ | h
  · rw [h]
  · rw [ha]
    simp only [if_pos hle]
  · cases hpf : parseFloat amount with
    | none => rfl
    | some a =>
      by_cases hle : a ≤ 0
      · simp only [if_pos hle]
      · simp only [if_neg hle, if_pos h]

/-- Witness for C1's amended theorem: a non-numeric amount aborts the
submit with the store unchanged. -/
theorem handleSubmit_rejects_invalid_witness :
    handleSubmit demoNow demoStore none "abc" "Food" "" "" = demoStore :=
  handleSubmit_rejects_invalid demoNow demoStore none "abc" "Food" "" ""
    (Or.inl (by decide))

/-- Counterexample for C1 as stated: the first variant's submit handler
`saveExpense` checks only that the raw `amount`, `category` and `date`
strings are non-empty, so a submission whose amount parses as the
non-positive value -5 is nevertheless inserted (the store changes). -/
theorem saveExpense_inserts_nonpositive_amount :
    parseFloat "-5" = some (-5) ∧ ((-5 : Rat) ≤ 0)
      ∧ saveExpense demoStore "-5" "Food" "x" "2024-01-02" ≠ demoStore := by
  refine ⟨?_, by norm_num, ?_⟩
  · have h : scanFloat "-5" = some ⟨-1, 5, 0, 0, 0⟩ := by decide
    rw [parseFloat, h]
    norm_num [litValue]
  · intro h
    have h2 := congrArg Store.nextId h
    have h3 : (saveExpense demoStore "-5" "Food" "x" "2024-01-02").nextId = 4 := by
      decide
    rw [h3] at h2
    exact absurd h2 (by decide)

/-- Claim C4: on an empty or unparseable date string every classifier
variant returns `false` (and, being a total function of the embedded
code, never throws), including the month classifier that has no explicit
invalid-date guard. -/
theorem classifiers_fail_closed (now : JSDate) (s : String)
    (h : s = "" ∨ parseDate s = none) :
    isInCurrentWeek now s = false ∧ isInCurrentMonth now s = false
      ∧ isInCurrentMonthV3 now s = false := by
  rcases h with h | h
  · subst h
    exact ⟨rfl, rfl, rfl⟩
  · by_cases hs : s = "" <;>
      simp [isInCurrentWeek, isInCurrentMonth, isInCurrentMonthV3, hs, h]

/-- Witness for C4 at a malformed date (February 31st does not exist). -/
theorem classifiers_fail_closed_witness :
    parseDate "2024-02-31" = none
      ∧ isInCurrentWeek demoNow "2024-02-31" = false
      ∧ isInCurrentMonth demoNow "2024-02-31" = false
      ∧ isInCurrentMonthV3 demoNow "2024-02-31" = false := by
  have h := classifiers_fail_closed demoNow "2024-02-31" (Or.inr (by decide))
  exact ⟨by decide, h.1, h.2.1, h.2.2⟩

/-- Claim C2: the `WEEK` classifier matches a date string exactly when it
parses and its timestamp lies in the closed interval from Monday
00:00:00.000 to Sunday 23:59:59.999 of the week containing `now`, the
Monday boundary being `now` minus `(weekday(now) + 6) mod 7` days
(weekday 0 = Sunday .. 6 = Saturday).  In particular, at the reference
time Wednesday 2024-01-10, the week's Monday 2024-01-08 (weekday 1)
matches and the preceding Sunday 2024-01-07 (weekday 0) does not, and the
interval start is exactly that Monday's midnight. -/
theorem isInCurrentWeek_iff_interval :
    (∀ (now : JSDate) (s : String),
      isInCurrentWeek now s = true
        ↔ ∃ d, parseDate s = some d
            ∧ weekStartMs now ≤ toMillis d ∧ toMillis d ≤ weekEndMs now)
      ∧ weekStartMs demoNow = toMillis ⟨2024, 1, 8, 0, 0, 0, 0⟩
      ∧ getDay ⟨2024, 1, 8, 0, 0, 0, 0⟩ = 1
      ∧ getDay ⟨2024, 1, 7, 0, 0, 0, 0⟩ = 0
      ∧ isInCurrentWeek demoNow "2024-01-08" = true
      ∧ isInCurrentWeek demoNow "2024-01-07" = false := by
  refine ⟨?_, by decide, by decide, by decide, by decide, by decide⟩
  intro now s
  unfold isInCurrentWeek weekStartMs weekEndMs
  by_cases hs : s = ""
  · subst hs
    simp [parseDate]
  · rw [if_neg hs]
    cases hp : parseDate s with
    | none => simp
    | some d => simp [weekStartMs]

/-- Claim C3: the `MONTH` classifier matches a date string exactly when it
parses with the same calendar year and month as `now`; the chart variant
computes the same result; and at the reference time 2024-01-10 the first
and the last day of January 2024 match while 2023-01-15 (same month
number, different year) does not. -/
theorem isInCurrentMonth_iff_same_month :
    (∀ (now : JSDate) (s : String),
      isInCurrentMonth now s = true
        ↔ ∃ d, parseDate s = some d ∧ d.year = now.year ∧ d.month = now.month)
      ∧ (∀ (now : JSDate) (s : String),
          isInCurrentMonthV3 now s = isInCurrentMonth now s)
      ∧ isInCurrentMonth demoNow "2024-01-01" = true
      ∧ isInCurrentMonth demoNow "2024-01-31" = true
      ∧ isInCurrentMonth demoNow "2023-01-15" = false := by
  refine ⟨?_, fun _ _ => rfl, by decide, by decide, by decide⟩
  intro now s
  unfold isInCurrentMonth
  by_cases hs : s = ""
  · subst hs
    simp [parseDate]
  · rw [if_neg hs]
    cases hp : parseDate s with
    | none => simp
    | some d => simp

/-- Folding the amounts onto an accumulator adds the list's amount sum. -/
lemma foldl_add_numAmount (es : List Expense) :
    ∀ a : Rat, es.foldl (fun sum e => sum + numAmount e) a
      = a + (es.map numAmount).sum := by
  induction es with
  | nil => intro a; simp
  | cons e es ih => intro a; simp [ih, add_assoc]

/-- Keys after a map assignment: unchanged for an existing key, appended
for a fresh one. -/
lemma keys_updateAdd (m : List (String × Rat)) (k : String) (v : Rat) :
    (updateAdd m k v).map Prod.fst
      = if k ∈ m.map Prod.fst then m.map Prod.fst
        else m.map Prod.fst ++ [k] := by
  induction m with
  | nil => simp [updateAdd]
  | cons p m ih =>
    obtain ⟨k0, v0⟩ := p
    by_cases hk : k0 = k
    · subst hk
      simp [updateAdd]
    · have hne : k ≠ k0 := fun h => hk h.symm
      by_cases hm : k ∈ m.map Prod.fst <;>
        simp [updateAdd, hk, hne, hm, ih]

/-- Lookup in a cons cell of an association list. -/
lemma lookup_pair_cons (k' k0 : String) (v0 : Rat) (m : List (String × Rat)) :
    List.lookup k' ((k0, v0) :: m)
      = if k' = k0 then some v0 else List.lookup k' m := by
  by_cases h : k' = k0
  · subst h
    simp [List.lookup]
  · have hb : (k' == k0) = false := beq_eq_false_iff_ne.mpr h
    simp [List.lookup, hb, h]

/-- Lookup after a map assignment: the assigned key gains `v` on top of
its previous value (0 when absent); other keys are untouched. -/
lemma lookup_updateAdd (m : List (String × Rat)) (k k' : String) (v : Rat) :
    (updateAdd m k v).lookup k'
      = if k' = k then some (((m.lookup k).getD 0) + v)
        else m.lookup k' := by
  induction m with
  | nil =>
    by_cases h : k' = k <;> simp [updateAdd, lookup_pair_cons, h]
  | cons p m ih =>
    obtain ⟨k0, v0⟩ := p
    by_cases hk : k0 = k
    · subst hk
      by_cases h' : k' = k0 <;>
        simp [updateAdd, lookup_pair_cons, h', ih]
    · have hne : k ≠ k0 := fun h => hk h.symm
      by_cases h' : k' = k0
      · subst h'
        simp [updateAdd, hk, lookup_pair_cons, hne, ih]
      · simp [updateAdd, hk, lookup_pair_cons, h', ih]
        rw [if_neg hne]

/-- Amount contributed by the head row to a category's sum. -/
lemma catSum_cons (e : Expense) (es : List Expense) (k : String) :
    catSum (e :: es) k
      = (if catKey e = k then numAmount e else 0) + catSum es k := by
  by_cases h : catKey e = k <;> simp [catSum, List.filter_cons, h]

/-- Lookup in the category-totals fold, generalised over the starting
accumulator: an already-present key ends with its start value plus the
category's amount sum; an absent key appears exactly when some row maps to
it, with the category's amount sum as value. -/
lemma lookup_totalsAux (es : List Expense) :
    ∀ (m : List (String × Rat)) (k : String),
      ((es.foldl (fun m e => updateAdd m (catKey e) (numAmount e)) m).lookup k)
        = match m.lookup k with
          | some v => some (v + catSum es k)
          | none =>
            if k ∈ es.map catKey then some (catSum es k) else none := by
  induction es with
  | nil =>
    intro m k
    cases h : m.lookup k <;> simp [h, catSum]
  | cons e es ih =>
    intro m k
    rw [List.foldl_cons, ih, lookup_updateAdd]
    by_cases hk : catKey e = k
    · rw [if_pos hk.symm, hk]
      cases hm : m.lookup k with
      | some v =>
        simp [catSum_cons, hk, add_assoc]
      | none =>
        simp [catSum_cons, hk]
    · rw [if_neg (fun h => hk h.symm)]
      cases hm : m.lookup k with
      | some v =>
        simp [hm, catSum_cons, hk]
      | none =>
        simp [hm, catSum_cons, hk, Ne.symm hk]

/-- First-encounter key extraction only depends on the membership of the
seen accumulator. -/
lemma firstOccsAux_congr (l : List String) :
    ∀ s1 s2 : List String, (∀ x, x ∈ s1 ↔ x ∈ s2) →
      firstOccsAux s1 l = firstOccsAux s2 l := by
  induction l with
  | nil => intro s1 s2 _; rfl
  | cons k ks ih =>
    intro s1 s2 h
    by_cases hk : k ∈ s1
    · rw [firstOccsAux, firstOccsAux, if_pos hk, if_pos ((h k).mp hk),
        ih s1 s2 h]
    · rw [firstOccsAux, firstOccsAux, if_neg hk,
        if_neg (fun hx => hk ((h k).mpr hx))]
      exact congrArg (k :: ·) (ih _ _ (by intro x; simp [h x]))

/-- Keys of the category-totals fold, generalised over the starting
accumulator: the starting keys followed by the remaining keys in order of
first encounter. -/
lemma keys_totalsAux (es : List Expense) :
    ∀ m : List (String × Rat),
      ((es.foldl (fun m e => updateAdd m (catKey e) (numAmount e)) m).map Prod.fst)
        = m.map Prod.fst ++ firstOccsAux (m.map Prod.fst) (es.map catKey) := by
  induction es with
  | nil => intro m; simp [firstOccsAux]
  | cons e es ih =>
    intro m
    rw [List.foldl_cons, ih, keys_updateAdd, List.map_cons]
    by_cases hk : catKey e ∈ m.map Prod.fst
    · rw [if_pos hk, firstOccsAux, if_pos hk]
    · rw [if_neg hk, firstOccsAux, if_neg hk,
        firstOccsAux_congr (es.map catKey) (m.map Prod.fst ++ [catKey e])
          (catKey e :: m.map Prod.fst)
          (by intro x; simp [List.mem_append, List.mem_cons, or_comm])]
      simp

/-- Claim C6: the grand total is the sum of the rows' amounts, a row with
a non-numeric (`NULL`) amount contributing zero, so that such a row can be
dropped without changing the total and the result is always a number. -/
theorem totalSpending_eq_sum :
    (∀ es : List Expense, totalSpending es = (es.map numAmount).sum)
      ∧ (∀ (es1 es2 : List Expense) (e : Expense), e.amount = none →
          totalSpending (es1 ++ e :: es2) = totalSpending (es1 ++ es2)) := by
  have key : ∀ es : List Expense, totalSpending es = (es.map numAmount).sum := by
    intro es
    unfold totalSpending
    rw [foldl_add_numAmount, zero_add]
  refine ⟨key, ?_⟩
  intro es1 es2 e he
  simp [key, numAmount, he]

/-- Witness for C6: dropping the `NULL`-amount fixture row leaves the
grand total of the demo rows unchanged. -/
theorem totalSpending_eq_sum_witness :
    totalSpending (demoExpenses ++ demoNullRow :: [])
      = totalSpending (demoExpenses ++ []) :=
  totalSpending_eq_sum.2 demoExpenses [] demoNullRow rfl

/-- Claim C7: the per-category mapping lists its keys in order of first
encounter in the input, each key's value is the amount sum of the rows
aggregated under that key, and on the specification's worked example the
mapping is Food 15 before Rent 3 with grand total 18. -/
theorem totalsByCategory_spec :
    (∀ es : List Expense,
      (totalsByCategory es).map Prod.fst = firstOccs (es.map catKey))
      ∧ (∀ (es : List Expense) (k : String),
          (totalsByCategory es).lookup k
            = if k ∈ es.map catKey then some (catSum es k) else none)
      ∧ totalsByCategory demoExpenses = [("Food", 15), ("Rent", 3)]
      ∧ totalSpending demoExpenses = 18 := by
  refine ⟨?_, ?_, ?_, ?_⟩
  · intro es
    have h := keys_totalsAux es []
    simpa [totalsByCategory, firstOccs] using h
  · intro es k
    have h := lookup_totalsAux es [] k
    simpa [totalsByCategory] using h
  · norm_num [totalsByCategory, updateAdd, catKey, numAmount, demoExpenses]
    decide
  · norm_num [totalSpending, numAmount, demoExpenses]

/-- Sum of the mapping's values after an assignment grows by the assigned
increment. -/
lemma values_sum_updateAdd (m : List (String × Rat)) (k : String) (v : Rat) :
    ((updateAdd m k v).map Prod.snd).sum = (m.map Prod.snd).sum + v := by
  induction m with
  | nil => simp [updateAdd]
  | cons p m ih =>
    obtain ⟨k0, v0⟩ := p
    by_cases hk : k0 = k <;> simp [updateAdd, hk, ih] <;> ring

/-- Sum of the values of the chart variant's category fold, generalised
over the starting accumulator. -/
lemma values_sum_totalsAux (es : List Expense) :
    ∀ m : List (String × Rat),
      (((es.foldl (fun m e => updateAdd m (catKeyV3 e) (numAmount e)) m).map
        Prod.snd).sum)
        = (m.map Prod.snd).sum + (es.map numAmount).sum := by
  induction es with
  | nil => intro m; simp
  | cons e es ih =>
    intro m
    rw [List.foldl_cons, ih, values_sum_updateAdd]
    simp [add_assoc]

/-- Folding rational addition onto an accumulator adds the list sum. -/
lemma foldl_add_rat (l : List Rat) :
    ∀ a : Rat, l.foldl (fun sum n => sum + n) a = a + l.sum := by
  induction l with
  | nil => intro a; simp
  | cons x l ih => intro a; simp [ih, add_assoc]

/-- Claim C9: on rows with numeric amounts, the validated variant's grand
total (direct reduction over the rows) equals the chart variant's grand
total (reduction over the values of its per-category mapping). -/
theorem totalSpending_strategies_agree (es : List Expense)
    (h : ∀ e ∈ es, e.amount.isSome = true) :
    totalSpending es = totalSpendingV3 es := by
  unfold totalSpendingV3 totalsByCategoryV3
  rw [foldl_add_rat, values_sum_totalsAux]
  unfold totalSpending
  rw [foldl_add_numAmount]
  simp

/-- Witness for C9 on the specification's worked example (all amounts
numeric). -/
theorem totalSpending_strategies_agree_witness :
    totalSpending demoExpenses = totalSpendingV3 demoExpenses :=
  totalSpending_strategies_agree demoExpenses (by decide)

/-- A digit character produced from a residue mod 10 is a decimal digit. -/
lemma digitChar_mod_isDigit (n : Nat) :
    (Nat.digitChar (n % 10)).isDigit = true := by
  have h : n % 10 < 10 := Nat.mod_lt _ (by norm_num)
  generalize n % 10 = k at h
  interval_cases k <;> rfl

/-- Reading back a digit character produced from a residue mod 10. -/
lemma digitVal_digitChar_mod (n : Nat) :
    digitVal (Nat.digitChar (n % 10)) = n % 10 := by
  have h : n % 10 < 10 := Nat.mod_lt _ (by norm_num)
  generalize n % 10 = k at h ⊢
  interval_cases k <;> rfl

/-- A month has at most 31 days. -/
lemma daysInMonth_le (y : Int) (m : Nat) : daysInMonth y m ≤ 31 := by
  unfold daysInMonth
  split_ifs <;> norm_num

/-- Round trip of the database date format through the date parser: a
valid civil date rendered as `YYYY-MM-DD` parses back to midnight of that
date.  This certifies that the rendering has the exact ten-character
ISO shape the parser recognises. -/
lemma parseDate_format (y m d : Nat) (hy : y < 10000) (hm1 : 1 ≤ m)
    (hm2 : m ≤ 12) (hd1 : 1 ≤ d) (hd2 : d ≤ daysInMonth (y : Int) m) :
    parseDate (String.mk (pad4 y ++ '-' :: (pad2 m ++ '-' :: pad2 d)))
      = some ⟨(y : Int), m, d, 0, 0, 0, 0⟩ := by
  have hflat : pad4 y ++ '-' :: (pad2 m ++ '-' :: pad2 d)
      = [Nat.digitChar (y / 1000 % 10), Nat.digitChar (y / 100 % 10),
         Nat.digitChar (y / 10 % 10), Nat.digitChar (y % 10), '-',
         Nat.digitChar (m / 10 % 10), Nat.digitChar (m % 10), '-',
         Nat.digitChar (d / 10 % 10), Nat.digitChar (d % 10)] := rfl
  have hd100 : d < 100 :=
    lt_of_le_of_lt (hd2.trans (daysInMonth_le _ _)) (by norm_num)
  have hy' : 1000 * (y / 1000 % 10) + 100 * (y / 100 % 10)
      + 10 * (y / 10 % 10) + y % 10 = y := by omega
  have hm' : 10 * (m / 10 % 10) + m % 10 = m := by omega
  have hd' : 10 * (d / 10 % 10) + d % 10 = d := by omega
  simp only [parseDate, hflat, digitChar_mod_isDigit, digitVal_digitChar_mod,
    Bool.and_self, Bool.and_true, Bool.true_and, beq_self_eq_true,
    if_true, hy', hm', hd']
  rw [if_pos ⟨hm1, hm2, hd1, hd2⟩]

/-- Claim C8: a validated submission with an empty (or whitespace-only)
date field inserts a row stamped with today's date, and that stamp is the
`YYYY-MM-DD` rendering of today's civil date (it parses back to today's
midnight through the ISO date parser). -/
theorem handleSubmit_empty_date_uses_today
    (now : JSDate) (st : Store) (amount category note date : String) (a : Rat)
    (hpf : parseFloat amount = some a) (hpos : 0 < a)
    (hcat : trimStr category ≠ "") (hdate : trimStr date = "")
    (hnow : ValidDate now) :
    handleSubmit now st none amount category note date
      = { rows := st.rows ++
            [⟨st.nextId, some a, trimStr category,
              (if trimStr note = "" then none else some (trimStr note)),
              formatDateForDb now⟩],
          nextId := st.nextId + 1 }
      ∧ parseDate (formatDateForDb now)
          = some ⟨now.year, now.month, now.day, 0, 0, 0, 0⟩ := by
  obtain ⟨h0, h1, h2, h3, h4, h5⟩ := hnow
  constructor
  · unfold handleSubmit
    rw [hpf]
    simp only [if_neg (not_le.mpr hpos), if_neg hcat, if_pos hdate]
  · have hcast : ((now.year.toNat : Nat) : Int) = now.year :=
      Int.toNat_of_nonneg h0
    have := parseDate_format now.year.toNat now.month now.day
      (by omega) h2 h3 h4 (by rw [hcast]; exact h5)
    rw [hcast] at this
    exact this

/-- Witness for C8: submitting amount 5, category Food and a blank date
at the reference time stamps the new row with 2024-01-10. -/
theorem handleSubmit_empty_date_uses_today_witness :
    handleSubmit demoNow demoStore none "5" "Food" "" "  "
      = { rows := demoStore.rows ++
            [⟨demoStore.nextId, some 5, trimStr "Food",
              (if trimStr "" = "" then none else some (trimStr "")),
              formatDateForDb demoNow⟩],
          nextId := demoStore.nextId + 1 }
      ∧ parseDate (formatDateForDb demoNow)
          = some ⟨demoNow.year, demoNow.month, demoNow.day, 0, 0, 0, 0⟩ :=
  handleSubmit_empty_date_uses_today demoNow demoStore "5" "Food" "" "  " 5
    (by rw [parseFloat, show scanFloat "5" = some ⟨1, 5, 0, 0, 0⟩ from by decide]
        norm_num [litValue])
    (by norm_num) (by decide) (by decide) (by decide)

end ExpenseApp
